/-
Verification of the FormulaRC_BOX input-transformation pipeline.

The development shallowly embeds the Arduino sketch (src/unnamed/part_000,
with src/FormulaRC_BOX.ino an older variant sharing logit and
applySteeringExponent verbatim).  C float arithmetic is modelled over the
exact reals; C int is modelled by Lean Int with the float-to-int
conversion made explicit (truncation toward zero).  The per-cycle mutable
globals become an explicit state record threaded through the processing
functions, and every call to the Joystick / Keyboard sinks becomes an
event in an output list.
-/
import Mathlib

namespace FormulaRC

/-! ### Constants (part_000 lines 70-92) -/

def KEY_SPACE : ℤ := 0x20

/-- Arduino Keyboard library constant used at part_000 line 681. -/
def KEY_DOWN_ARROW : ℤ := 0xD9

/-- Arduino Keyboard library constant used at part_000 line 687. -/
def KEY_LEFT_SHIFT : ℤ := 0x81

def S_DEADZONE : ℤ := 25

def T_DEADZONE : ℤ := 25

def Z_DEADZONE : ℤ := 50

def ACCELERATOR_MIN : ℤ := 0

def ACCELERATOR_MAX : ℤ := 1000

def BRAKE_MIN : ℤ := 0

def BRAKE_MAX : ℤ := 1000

def AUX_MIN : ℤ := 0

/-! ### Curve library (part_000 lines 142-146 and 379-405, pure functions) -/

/-- mapFloat (part_000 lines 143-146). -/
noncomputable def mapFloat (x in_min in_max out_min out_max : ℝ) : ℝ :=
  (x - in_min) * (out_max - out_min) / (in_max - in_min) + out_min

/-- The clamp performed at part_000 line 383 (and again at line 393):
`max(0.0001f, min(0.9999f, x))`. -/
noncomputable def logitClamp (x : ℝ) : ℝ := max 0.0001 (min 0.9999 x)

/-- logit (part_000 lines 380-385): clamp, then `log(x / (1 - x))`. -/
noncomputable def logit (x : ℝ) : ℝ :=
  Real.log (logitClamp x / (1 - logitClamp x))

/-- adjustedLogitCurve (part_000 lines 388-405), with the intermediate
assignments inlined: normalize to 0-1, clamp, logit, scale by the
adjustment, remap `(y+6)/12*1000`, blend with the raw input, clamp the
result to [0, 1000]. -/
noncomputable def adjustedLogitCurve (input adjustment blendFactor : ℝ) : ℝ :=
  max 0 (min 1000
    (blendFactor * ((logit (logitClamp (input / 1000)) * adjustment + 6) / 12 * 1000)
      + (1 - blendFactor) * input))

/-- applySteeringExponent (part_000 lines 283-295): normalize to [-1,1],
apply `sign(x) * |x|^exponent`, denormalize. -/
noncomputable def applySteeringExponent (rawSteeringValue : ℤ) (exponent : ℝ) : ℝ :=
  (if ((rawSteeringValue : ℝ) / 1000) < 0 then (-1 : ℝ) else 1)
    * |(rawSteeringValue : ℝ) / 1000| ^ exponent * 1000

/-- The shape `sign(x) * |x|^e` applied on the normalized steering input. -/
noncomputable def steeringShape (exponent x : ℝ) : ℝ :=
  (if x < 0 then (-1 : ℝ) else 1) * |x| ^ exponent

lemma applySteeringExponent_eq (v : ℤ) (e : ℝ) :
    applySteeringExponent v e = steeringShape e ((v : ℝ) / 1000) * 1000 := rfl

lemma steeringShape_zero (e : ℝ) (he : e ≠ 0) : steeringShape e 0 = 0 := by
  unfold steeringShape
  rw [if_neg (lt_irrefl (0 : ℝ)), abs_zero, Real.zero_rpow he, one_mul]

lemma steeringShape_of_nonneg (e x : ℝ) (hx : 0 ≤ x) : steeringShape e x = x ^ e := by
  unfold steeringShape
  rw [if_neg (not_lt.mpr hx), abs_of_nonneg hx, one_mul]

lemma steeringShape_of_neg (e x : ℝ) (hx : x < 0) : steeringShape e x = -((-x) ^ e) := by
  unfold steeringShape
  rw [if_pos hx, abs_of_neg hx]
  ring

lemma steeringShape_odd (e : ℝ) (he : e ≠ 0) (x : ℝ) :
    steeringShape e (-x) = -steeringShape e x := by
  rcases lt_trichotomy x 0 with hx | hx | hx
  · rw [steeringShape_of_neg e x hx, steeringShape_of_nonneg e (-x) (by linarith)]
    ring
  · subst hx
    rw [neg_zero, steeringShape_zero e he, neg_zero]
  · rw [steeringShape_of_neg e (-x) (by linarith), steeringShape_of_nonneg e x hx.le,
      neg_neg]

lemma steeringShape_mono (e : ℝ) (he : 0 < e) : Monotone (steeringShape e) := by
  intro x y hxy
  rcases lt_or_le x 0 with hx | hx
  · rcases lt_or_le y 0 with hy | hy
    · rw [steeringShape_of_neg e x hx, steeringShape_of_neg e y hy]
      have h := Real.rpow_le_rpow (by linarith : (0:ℝ) ≤ -y) (by linarith : -y ≤ -x) he.le
      linarith
    · rw [steeringShape_of_neg e x hx, steeringShape_of_nonneg e y hy]
      have h1 : (0:ℝ) ≤ (-x) ^ e := Real.rpow_nonneg (by linarith) e
      have h2 : (0:ℝ) ≤ y ^ e := Real.rpow_nonneg hy e
      linarith
  · have hy : 0 ≤ y := le_trans hx hxy
    rw [steeringShape_of_nonneg e x hx, steeringShape_of_nonneg e y hy]
    exact Real.rpow_le_rpow hx hxy he.le

/-! ### Claim C1 -/

/-- C1: for every integer input v in [0,1000] and every curve-adjustment
value, `adjustedLogitCurve(v, adjustment, 0)` returns exactly v: the
blend `0 * curved + (1 - 0) * v` is mathematically the identity, and the
final clamp to [0,1000] does not move a value already in range. -/
theorem adjustedLogitCurve_blendZero_id (v : ℤ) (adjustment : ℝ)
    (h0 : 0 ≤ v) (h1 : v ≤ 1000) :
    adjustedLogitCurve (v : ℝ) adjustment 0 = (v : ℝ) := by
  have h0' : (0 : ℝ) ≤ (v : ℝ) := by exact_mod_cast h0
  have h1' : ((v : ℝ)) ≤ 1000 := by exact_mod_cast h1
  unfold adjustedLogitCurve
  rw [zero_mul, sub_zero, one_mul, zero_add, min_eq_right h1', max_eq_right h0']

/-- Witness for C1 at v = 500, adjustment = 1. -/
theorem adjustedLogitCurve_blendZero_id_witness :
    (0 : ℤ) ≤ 500 ∧ (500 : ℤ) ≤ 1000 ∧
      adjustedLogitCurve ((500 : ℤ) : ℝ) 1 0 = ((500 : ℤ) : ℝ) :=
  ⟨by decide, by decide,
    adjustedLogitCurve_blendZero_id 500 1 (by decide) (by decide)⟩

/-! ### Claim C5 -/

/-- C5 counterexample: the clamp in logit does not land in the OPEN
interval (0.0001, 0.9999) for every input; at x = 0 the clamped value is
exactly the boundary 0.0001. -/
theorem logitClamp_open_interval_counterexample :
    logitClamp 0 = 0.0001 ∧
      ¬(0.0001 < logitClamp 0 ∧ logitClamp 0 < 0.9999) := by
  have h : logitClamp 0 = 0.0001 := by
    unfold logitClamp
    rw [min_eq_right (by norm_num), max_eq_left (by norm_num)]
  exact ⟨h, by rw [h]; simp⟩

/-- C5 (amended): logit clamps its argument into the CLOSED interval
[0.0001, 0.9999] before the logarithm; the clamped value is strictly
inside (0,1), so the logarithm's argument `x/(1-x)` is strictly positive
and inputs ≤ 0 or ≥ 1 cause no domain error. -/
theorem logitClamp_closed_safe (x : ℝ) :
    0.0001 ≤ logitClamp x ∧ logitClamp x ≤ 0.9999 ∧
      0 < logitClamp x ∧ logitClamp x < 1 ∧
      0 < logitClamp x / (1 - logitClamp x) ∧
      logit x = Real.log (logitClamp x / (1 - logitClamp x)) := by
  have hlo : (0.0001 : ℝ) ≤ logitClamp x := le_max_left _ _
  have hhi : logitClamp x ≤ 0.9999 := by
    unfold logitClamp
    exact max_le (by norm_num) (min_le_left _ _)
  have h0 : (0 : ℝ) < logitClamp x := lt_of_lt_of_le (by norm_num) hlo
  have h1 : logitClamp x < 1 := lt_of_le_of_lt hhi (by norm_num)
  exact ⟨hlo, hhi, h0, h1, div_pos h0 (by linarith), rfl⟩

/-! ### Claim C4 -/

lemma logitClamp_half : logitClamp (1 / 2) = 1 / 2 := by
  unfold logitClamp
  rw [min_eq_right (by norm_num), max_eq_right (by norm_num)]

lemma logit_half : logit (1 / 2) = 0 := by
  unfold logit
  rw [logitClamp_half, show ((1 : ℝ) / 2) / (1 - 1 / 2) = 1 by norm_num,
    Real.log_one]

/-- 500 is a fixed point of the blended logit curve for every adjustment
and every blend factor: the normalized midpoint has logit 0, which the
remap sends back to 500, so curved and raw coincide there. -/
lemma adjustedLogitCurve_at_500 (adjustment b : ℝ) :
    adjustedLogitCurve 500 adjustment b = 500 := by
  unfold adjustedLogitCurve
  rw [show (500 : ℝ) / 1000 = 1 / 2 by norm_num, logitClamp_half, logit_half,
    zero_mul, zero_add,
    show (b * (6 / 12 * 1000) + (1 - b) * 500 : ℝ) = 500 by ring,
    min_eq_right (by norm_num : (500 : ℝ) ≤ 1000),
    max_eq_right (by norm_num : (0 : ℝ) ≤ 500)]

/-- C4 counterexample: at throttle raw reading 500 with adjustment 1 and
blend factor 0.5 the curved output is NOT strictly between the raw value
and the full-logit-curve value: raw value, blended output, and the
blend-1 curve value are all exactly 500. -/
theorem midpoint_not_strictly_between :
    ¬((500 < adjustedLogitCurve 500 1 0.5 ∧
        adjustedLogitCurve 500 1 0.5 < adjustedLogitCurve 500 1 1) ∨
      (adjustedLogitCurve 500 1 1 < adjustedLogitCurve 500 1 0.5 ∧
        adjustedLogitCurve 500 1 0.5 < 500)) := by
  rw [adjustedLogitCurve_at_500, adjustedLogitCurve_at_500]
  simp

/-- C4 (amended): with throttle raw reading 500 and blendFactor 0.5 the
curved accelerator output equals the raw value 500 exactly (500 is a
fixed point of the blended logit curve), hence lies non-strictly between
the raw value and the full-curve value, and is strictly inside (0,1000). -/
theorem midpoint_output_bounds :
    adjustedLogitCurve 500 1 0.5 = 500 ∧
      min 500 (adjustedLogitCurve 500 1 1) ≤ adjustedLogitCurve 500 1 0.5 ∧
      adjustedLogitCurve 500 1 0.5 ≤ max 500 (adjustedLogitCurve 500 1 1) ∧
      0 < adjustedLogitCurve 500 1 0.5 ∧ adjustedLogitCurve 500 1 0.5 < 1000 := by
  rw [adjustedLogitCurve_at_500, adjustedLogitCurve_at_500]
  norm_num

/-! ### Claim C7 -/

/-- C7: the steering curve sends 0 to 0, is odd (exact sign and zero
preservation), and is monotone on the full raw range [-1000,1000]
(i.e. on the normalized range [-1,1]) for every exponent e > 0. -/
theorem steeringCurve_odd_monotone (e : ℝ) (he : 0 < e) :
    applySteeringExponent 0 e = 0 ∧
      (∀ v : ℤ, applySteeringExponent (-v) e = -applySteeringExponent v e) ∧
      MonotoneOn (fun v : ℤ => applySteeringExponent v e)
        (Set.Icc (-1000) 1000) := by
  refine ⟨?_, ?_, ?_⟩
  · rw [applySteeringExponent_eq]
    norm_num [steeringShape_zero e he.ne']
  · intro v
    rw [applySteeringExponent_eq, applySteeringExponent_eq,
      show ((-v : ℤ) : ℝ) / 1000 = -((v : ℝ) / 1000) by push_cast; ring,
      steeringShape_odd e he.ne']
    ring
  · intro a _ b _ hab
    simp only [applySteeringExponent_eq]
    have h1 : ((a : ℝ)) / 1000 ≤ ((b : ℝ)) / 1000 := by
      have : (a : ℝ) ≤ (b : ℝ) := by exact_mod_cast hab
      linarith
    have h2 := steeringShape_mono e he h1
    linarith

/-- Witness for C7 at the sketch's exponent 1.64. -/
theorem steeringCurve_odd_monotone_witness :
    (0 : ℝ) < 1.64 ∧
      (applySteeringExponent 0 1.64 = 0 ∧
        (∀ v : ℤ, applySteeringExponent (-v) 1.64 = -applySteeringExponent v 1.64) ∧
        MonotoneOn (fun v : ℤ => applySteeringExponent v 1.64)
          (Set.Icc (-1000) 1000)) :=
  ⟨by norm_num, steeringCurve_odd_monotone 1.64 (by norm_num)⟩

/-! ### Pipeline state (part_000 lines 124-140 globals) and output events -/

/-- Configuration snapshot: the three curve toggles (lines 43-45, updated
by readDipSwitches) and the two numeric tuning factors (lines 139-140). -/
structure Config where
  steeringExponential : Bool
  acceleratorCurve : Bool
  brakeCurve : Bool
  steeringExponent : ℝ
  curveAdjustment : ℝ

/-- The mutable globals of the sketch.  `buttonState` is the 3-element
array of line 130 together with one extra slot: the aux loop at line 593
runs `i < 4` and therefore also touches `buttonState[3]`, one past the
declared end (see the C9 theorem); the model gives that out-of-bounds
cell well-defined storage so the rest of the pipeline stays total. -/
structure St where
  lastSteeringInput : ℤ
  lastThrottleInput : ℤ
  lastSteeringOutput : ℤ
  lastAcceleratorOutput : ℤ
  lastBrakeOutput : ℤ
  lastAux3Output : ℤ
  auxInput3 : ℤ
  buttonState : Fin 4 → Bool

/-- One event per call to the external Joystick / Keyboard sinks. -/
inductive Ev where
  | joySetSteering : ℤ → Ev
  | joySetThrottle : ℤ → Ev
  | joySetAccelerator : ℤ → Ev
  | joySetBrake : ℤ → Ev
  | joyPressButton : ℕ → Ev
  | joyReleaseButton : ℕ → Ev
  | keyPress : ℤ → Ev
  | keyRelease : ℤ → Ev
deriving DecidableEq

/-- C float-to-int conversion: truncation toward zero. -/
noncomputable def truncToInt (x : ℝ) : ℤ := if x < 0 then -⌊-x⌋ else ⌊x⌋

/-- The deadzone dispatch of processSteering (part_000 lines 273-280):
outside the deadzone the raw value is forwarded, inside it 0 is forwarded. -/
def effectiveSteering (v : ℤ) : ℤ := if S_DEADZONE < |v| then v else 0

/-- The value processThrottle passes to adjustAccelerator
(part_000 lines 351-376). -/
def effectiveAccelerator (v : ℤ) : ℤ :=
  if T_DEADZONE < |v| then (if T_DEADZONE < v then |v| else 0) else 0

/-- The value processThrottle passes to adjustBrake
(part_000 lines 351-376). -/
def effectiveBrake (v : ℤ) : ℤ :=
  if T_DEADZONE < |v| then
    (if T_DEADZONE < v then 0 else (if v < -T_DEADZONE then |v| else 0))
  else 0

/-- setSteering (part_000 lines 318-334): forwards to the sink. -/
def setSteering (value : ℤ) : List Ev := [Ev.joySetSteering value]

/-- The clamp at the head of setAccelerator (part_000 lines 482-489). -/
def clampAccelerator (value : ℤ) : ℤ :=
  if ACCELERATOR_MAX < value then ACCELERATOR_MAX
  else if value < ACCELERATOR_MIN then ACCELERATOR_MIN
  else value

/-- setAccelerator (part_000 lines 480-519): clamp to [0,1000]; with
aux3 above AUX_MIN the value goes to the Throttle axis and Accelerator
is zeroed, otherwise the value goes to Accelerator and Throttle is
zeroed. -/
def setAccelerator (s : St) (value : ℤ) (adjustment : ℝ) : List Ev :=
  if AUX_MIN < s.auxInput3 then
    [Ev.joySetThrottle (clampAccelerator value), Ev.joySetAccelerator 0]
  else
    [Ev.joySetThrottle 0, Ev.joySetAccelerator (clampAccelerator value)]

/-- The clamp at the head of setBrake (part_000 lines 554-561). -/
def clampBrake (value : ℤ) : ℤ :=
  if BRAKE_MAX < value then BRAKE_MAX
  else if value < BRAKE_MIN then BRAKE_MIN
  else value

/-- setBrake (part_000 lines 552-582). -/
def setBrake (value : ℤ) (adjustment : ℝ) : List Ev :=
  [Ev.joySetBrake (clampBrake value)]

/-- adjustSteering (part_000 lines 297-316): change-gate on the last
forwarded value, then apply the exponent curve iff enabled. -/
noncomputable def adjustSteering (cfg : Config) (s : St) (value : ℤ) :
    St × List Ev :=
  if s.lastSteeringOutput = value then (s, [])
  else
    let s' := { s with lastSteeringOutput := value }
    if cfg.steeringExponential then
      (s', setSteering (truncToInt (applySteeringExponent value cfg.steeringExponent)))
    else (s', setSteering value)

/-- processSteering (part_000 lines 254-281): raw change-gate, then
deadzone dispatch into adjustSteering. -/
noncomputable def processSteering (cfg : Config) (s : St) (steeringInput : ℤ) :
    St × List Ev :=
  if s.lastSteeringInput = steeringInput then (s, [])
  else adjustSteering cfg { s with lastSteeringInput := steeringInput }
    (effectiveSteering steeringInput)

/-- adjustAccelerator (part_000 lines 450-478): change-gate, then, when
the curve is enabled and aux3 is above AUX_MIN, blend via
adjustedLogitCurve with the aux3-derived blend factor and round
(`(int)(x + 0.5f)`), else pass through. -/
noncomputable def adjustAccelerator (cfg : Config) (s : St) (value : ℤ) :
    St × List Ev :=
  if s.lastAcceleratorOutput = value then (s, [])
  else
    let s' := { s with lastAcceleratorOutput := value }
    if cfg.acceleratorCurve = true ∧ AUX_MIN < s'.auxInput3 then
      let aux3Adjustment := mapFloat (s'.auxInput3 : ℝ) 0 1000 (-0.1) 1.5
      (s', setAccelerator s'
        (truncToInt (adjustedLogitCurve (value : ℝ) cfg.curveAdjustment aux3Adjustment + 0.5))
        aux3Adjustment)
    else (s', setAccelerator s' value 0)

/-- adjustBrake (part_000 lines 521-550). -/
noncomputable def adjustBrake (cfg : Config) (s : St) (value : ℤ) :
    St × List Ev :=
  if s.lastBrakeOutput = value then (s, [])
  else
    let s' := { s with lastBrakeOutput := value }
    if cfg.brakeCurve = true ∧ AUX_MIN < s'.auxInput3 then
      let aux3Adjustment := mapFloat (s'.auxInput3 : ℝ) 0 1000 (-0.1) 1.5
      (s', setBrake
        (truncToInt (adjustedLogitCurve (value : ℝ) cfg.curveAdjustment aux3Adjustment + 0.5))
        aux3Adjustment)
    else (s', setBrake value 0)

/-- processThrottle (part_000 lines 336-377): raw change-gate, then the
accelerator/brake split; in every branch adjustAccelerator runs first and
adjustBrake second, with the arguments given by the deadzone dispatch. -/
noncomputable def processThrottle (cfg : Config) (s : St) (throttleInput : ℤ) :
    St × List Ev :=
  if s.lastThrottleInput = throttleInput then (s, [])
  else
    let s' := { s with lastThrottleInput := throttleInput }
    let pa := adjustAccelerator cfg s' (effectiveAccelerator throttleInput)
    let pb := adjustBrake cfg pa.1 (effectiveBrake throttleInput)
    (pb.1, pa.2 ++ pb.2)

/-- The fixed key mapping of the switch statements at part_000
lines 678-691 and 724-737 (case 3 sends nothing). -/
def keyCodeFor (button : Fin 4) : Option ℤ :=
  if button.val = 0 then some KEY_DOWN_ARROW
  else if button.val = 1 then some KEY_SPACE
  else if button.val = 2 then some KEY_LEFT_SHIFT
  else none

/-- pressButton (part_000 lines 644-693): latch gate, set the latch, then
emit either a HID button press (aux3 above AUX_MIN) or the mapped
key press. -/
def pressButton (s : St) (button : Fin 4) : St × List Ev :=
  if s.buttonState button then (s, [])
  else
    let s' := { s with buttonState := Function.update s.buttonState button true }
    if AUX_MIN < s'.auxInput3 then (s', [Ev.joyPressButton button.val])
    else
      (s', match keyCodeFor button with
        | some k => [Ev.keyPress k]
        | none => [])

/-- releaseButton (part_000 lines 695-739). -/
def releaseButton (s : St) (button : Fin 4) : St × List Ev :=
  if s.buttonState button then
    let s' := { s with buttonState := Function.update s.buttonState button false }
    if AUX_MIN < s'.auxInput3 then (s', [Ev.joyReleaseButton button.val])
    else
      (s', match keyCodeFor button with
        | some k => [Ev.keyRelease k]
        | none => [])
  else (s, [])

/-- One iteration of the aux loop (part_000 lines 600-607): a reading
above AUX_MIN releases the button, otherwise it presses it. -/
def auxButtonStep (s : St) (a : ℤ) (i : Fin 4) : St × List Ev :=
  if AUX_MIN < a then releaseButton s i else pressButton s i

/-- setAux3 (part_000 lines 617-642): change-gated on Z_DEADZONE; the
Joystick axis write is commented out in the source, so no event. -/
def setAux3 (s : St) (value : ℤ) : St × List Ev :=
  if |s.lastAux3Output - value| < Z_DEADZONE then (s, [])
  else ({ s with lastAux3Output := value }, [])

/-- processAuxChannels (part_000 lines 584-615): store aux3, run the
button loop for i = 0,1,2,3, then setAux3. -/
def processAuxChannels (s : St) (a0 a1 a2 a3 : ℤ) : St × List Ev :=
  let s0 := { s with auxInput3 := a3 }
  let p0 := auxButtonStep s0 a0 0
  let p1 := auxButtonStep p0.1 a1 1
  let p2 := auxButtonStep p1.1 a2 2
  let p3 := auxButtonStep p2.1 a3 3
  let p4 := setAux3 p3.1 a3
  (p4.1, p0.2 ++ (p1.2 ++ (p2.2 ++ (p3.2 ++ p4.2))))

/-- One iteration of loop() (part_000 lines 216-230): steering, throttle,
aux channels, in that order. -/
noncomputable def fullCycle (cfg : Config) (s : St)
    (steeringRaw throttleRaw a0 a1 a2 a3 : ℤ) : St × List Ev :=
  let p1 := processSteering cfg s steeringRaw
  let p2 := processThrottle cfg p1.1 throttleRaw
  let p3 := processAuxChannels p2.1 a0 a1 a2 a3
  (p3.1, p1.2 ++ (p2.2 ++ p3.2))

/-- The initial values of the globals (part_000 lines 124-136). -/
def initSt : St :=
  { lastSteeringInput := 0, lastThrottleInput := 0, lastSteeringOutput := 0,
    lastAcceleratorOutput := 0, lastBrakeOutput := 0, lastAux3Output := 0,
    auxInput3 := 0, buttonState := fun _ => false }

/-! ### Claim C3 -/

/-- C3: any raw reading within the deadzone band (|v| ≤ 25, with
S_DEADZONE = T_DEADZONE = 25) yields effective input 0 for the steering,
accelerator and brake paths; none of these dispatches consults a curve
toggle. -/
theorem deadzone_forces_rest (v : ℤ) (h : |v| ≤ S_DEADZONE) :
    effectiveSteering v = 0 ∧ effectiveAccelerator v = 0 ∧ effectiveBrake v = 0 := by
  have h' : ¬S_DEADZONE < |v| := not_lt.mpr h
  have h'' : ¬T_DEADZONE < |v| := h'
  refine ⟨?_, ?_, ?_⟩
  · simp only [effectiveSteering, if_neg h']
  · simp only [effectiveAccelerator, if_neg h'']
  · simp only [effectiveBrake, if_neg h'']

/-- Witness for C3 at the spec's scenario value 12. -/
theorem deadzone_forces_rest_witness :
    |(12 : ℤ)| ≤ S_DEADZONE ∧
      (effectiveSteering 12 = 0 ∧ effectiveAccelerator 12 = 0 ∧
        effectiveBrake 12 = 0) :=
  ⟨by decide, deadzone_forces_rest 12 (by decide)⟩

/-! ### Claim C10 -/

/-- C10: every call to setAccelerator emits, for aux3 above AUX_MIN, the
clamped value on the Throttle axis and 0 on the Accelerator axis, and
otherwise the clamped value on the Accelerator axis and 0 on the
Throttle axis; in every emitted pair at least one of the two axis values
is 0. -/
theorem setAccelerator_mutual_exclusion (s : St) (value : ℤ) (adjustment : ℝ) :
    (AUX_MIN < s.auxInput3 →
      setAccelerator s value adjustment =
        [Ev.joySetThrottle (clampAccelerator value), Ev.joySetAccelerator 0]) ∧
    (s.auxInput3 ≤ AUX_MIN →
      setAccelerator s value adjustment =
        [Ev.joySetThrottle 0, Ev.joySetAccelerator (clampAccelerator value)]) ∧
    (∀ t a : ℤ, Ev.joySetThrottle t ∈ setAccelerator s value adjustment →
      Ev.joySetAccelerator a ∈ setAccelerator s value adjustment →
      t = 0 ∨ a = 0) := by
  unfold setAccelerator
  split_ifs with h
  · refine ⟨fun _ => rfl, fun h2 => absurd h (not_lt.mpr h2), ?_⟩
    intro t a ht ha
    simp only [List.mem_cons, List.mem_singleton] at ha
    rcases ha with ha | ha | ha
    · exact absurd ha (by simp)
    · injection ha with h2
      exact Or.inr h2
    · exact absurd ha (by simp at ha)
  · refine ⟨fun h2 => absurd h2 h, fun _ => rfl, ?_⟩
    intro t a ht ha
    simp only [List.mem_cons, List.mem_singleton] at ht
    rcases ht with ht | ht | ht
    · injection ht with h2
      exact Or.inl h2
    · exact absurd ht (by simp)
    · exact absurd ht (by simp at ht)

/-- Witness for C10: aux3 = 500, raw value 1200 (clamped to 1000). -/
theorem setAccelerator_mutual_exclusion_witness :
    AUX_MIN < ({ initSt with auxInput3 := 500 } : St).auxInput3 ∧
      setAccelerator { initSt with auxInput3 := 500 } 1200 0 =
        [Ev.joySetThrottle 1000, Ev.joySetAccelerator 0] := by
  refine ⟨by decide, ?_⟩
  have h := (setAccelerator_mutual_exclusion { initSt with auxInput3 := 500 }
    1200 0).1 (by decide)
  rw [h]
  decide

/-! ### Claim C9 -/

/-- The declared element count of `bool buttonState[] = {false,false,false}`
(part_000 line 130). -/
def buttonStateDeclaredLength : ℕ := 3

/-- The index sequence of the aux-channel loop `for (int i = 0; i < 4; i++)`
(part_000 line 593). -/
def auxLoopIndices : List ℕ := List.range 4

/-- C9 is violated: the aux-channel loop visits index 3, which is outside
the bounds of the 3-element buttonState array, and a cycle with all aux
readings at 0 latches that out-of-range slot via pressButton(3). -/
theorem auxLoop_index_out_of_bounds :
    (∃ i ∈ auxLoopIndices, buttonStateDeclaredLength ≤ i) ∧
      (processAuxChannels initSt 0 0 0 0).1.buttonState 3 = true := by
  constructor
  · exact ⟨3, by decide, by decide⟩
  · decide

/-! ### Claim C2 -/

def isKeyPressEv : Ev → Bool := fun e =>
  match e with
  | Ev.keyPress _ => true
  | _ => false

def isJoyButtonEv : Ev → Bool := fun e =>
  match e with
  | Ev.joyPressButton _ => true
  | Ev.joyReleaseButton _ => true
  | _ => false

/-- C2 counterexample: starting from the initial state, a cycle with all
aux channels at 0 followed by a cycle where button 0's channel reads 800
(mode channel aux3 at 0 both times) does NOT produce exactly one
key-press event on the second cycle: the threshold logic is inverted
(readings above AUX_MIN call releaseButton), so the rise produces no
key-press at all. -/
theorem buttonRise_keyPress_counterexample :
    ¬((processAuxChannels (processAuxChannels initSt 0 0 0 0).1
        800 0 0 0).2.countP isKeyPressEv = 1) := by
  decide

/-- C2 (amended): when a button channel rises from 0 to 800 while the
mode channel reads 0 (keyboard mode), the pipeline emits exactly one
key-RELEASE event for that button's mapped key and zero HID-button
events: the code treats a reading above AUX_MIN as the released position
(releaseButton) and a reading at rest as pressed (pressButton), so the
press edge fires at rest and the rise produces the single release edge. -/
theorem buttonRise_single_keyRelease :
    (processAuxChannels (processAuxChannels initSt 0 0 0 0).1
        800 0 0 0).2 = [Ev.keyRelease KEY_DOWN_ARROW] ∧
      (processAuxChannels (processAuxChannels initSt 0 0 0 0).1
        800 0 0 0).2.countP isJoyButtonEv = 0 := by
  constructor
  · decide
  · decide

/-! ### State-shape lemmas for the per-cycle functions -/

lemma adjustSteering_fst (cfg : Config) (s : St) (v : ℤ) :
    (adjustSteering cfg s v).1 = { s with lastSteeringOutput := v } := by
  simp only [adjustSteering]
  split_ifs with h h2
  · rw [← h]
  · rfl
  · rfl

lemma processSteering_fst (cfg : Config) (s : St) (v : ℤ) :
    ∃ o, (processSteering cfg s v).1 =
      { s with lastSteeringInput := v, lastSteeringOutput := o } := by
  simp only [processSteering]
  split_ifs with h
  · exact ⟨s.lastSteeringOutput, by rw [← h]⟩
  · exact ⟨effectiveSteering v, by rw [adjustSteering_fst]⟩

lemma adjustAccelerator_fst (cfg : Config) (s : St) (v : ℤ) :
    (adjustAccelerator cfg s v).1 = { s with lastAcceleratorOutput := v } := by
  simp only [adjustAccelerator]
  split_ifs with h h2
  · rw [← h]
  · rfl
  · rfl

lemma adjustBrake_fst (cfg : Config) (s : St) (v : ℤ) :
    (adjustBrake cfg s v).1 = { s with lastBrakeOutput := v } := by
  simp only [adjustBrake]
  split_ifs with h h2
  · rw [← h]
  · rfl
  · rfl

lemma processThrottle_fst (cfg : Config) (s : St) (v : ℤ) :
    ∃ p q, (processThrottle cfg s v).1 =
      { s with
          lastThrottleInput := v
          lastAcceleratorOutput := p
          lastBrakeOutput := q } := by
  simp only [processThrottle]
  split_ifs with h
  · exact ⟨s.lastAcceleratorOutput, s.lastBrakeOutput, by rw [← h]⟩
  · exact ⟨effectiveAccelerator v, effectiveBrake v,
      by rw [adjustBrake_fst, adjustAccelerator_fst]⟩

/-- The latch value the aux loop leaves behind for a reading `a`. -/
def buttonOf (a : ℤ) : Bool := if AUX_MIN < a then false else true

lemma pressButton_fst (s : St) (i : Fin 4) :
    (pressButton s i).1 =
      { s with buttonState := Function.update s.buttonState i true } := by
  simp only [pressButton]
  split_ifs with h h2
  · conv_rhs => rw [← h]
    rw [Function.update_eq_self]
  · rfl
  · rfl

lemma releaseButton_fst (s : St) (i : Fin 4) :
    (releaseButton s i).1 =
      { s with buttonState := Function.update s.buttonState i false } := by
  simp only [releaseButton]
  split_ifs with h h2
  · rfl
  · rfl
  · have h' : s.buttonState i = false := by
      revert h
      cases s.buttonState i <;> simp
    conv_rhs => rw [← h']
    rw [Function.update_eq_self]

lemma auxButtonStep_fst (s : St) (a : ℤ) (i : Fin 4) :
    (auxButtonStep s a i).1 =
      { s with buttonState := Function.update s.buttonState i (buttonOf a) } := by
  simp only [auxButtonStep, buttonOf]
  split_ifs with h
  · rw [releaseButton_fst]
  · rw [pressButton_fst]

lemma setAux3_fst_frame (s : St) (v : ℤ) :
    (setAux3 s v).1.buttonState = s.buttonState ∧
      (setAux3 s v).1.auxInput3 = s.auxInput3 ∧
      (setAux3 s v).1.lastSteeringInput = s.lastSteeringInput ∧
      (setAux3 s v).1.lastThrottleInput = s.lastThrottleInput := by
  simp only [setAux3]
  split_ifs <;> exact ⟨rfl, rfl, rfl, rfl⟩

lemma setAux3_fst_lastAux3Close (s : St) (v : ℤ) :
    |(setAux3 s v).1.lastAux3Output - v| < Z_DEADZONE := by
  simp only [setAux3]
  split_ifs with h
  · exact h
  · show |v - v| < Z_DEADZONE
    rw [sub_self, abs_zero]
    decide

lemma processAuxChannels_fst (s : St) (a0 a1 a2 a3 : ℤ) :
    (processAuxChannels s a0 a1 a2 a3).1.buttonState =
      Function.update (Function.update (Function.update (Function.update
        s.buttonState 0 (buttonOf a0)) 1 (buttonOf a1)) 2 (buttonOf a2))
        3 (buttonOf a3) ∧
    (processAuxChannels s a0 a1 a2 a3).1.lastSteeringInput = s.lastSteeringInput ∧
    (processAuxChannels s a0 a1 a2 a3).1.lastThrottleInput = s.lastThrottleInput ∧
    (processAuxChannels s a0 a1 a2 a3).1.auxInput3 = a3 ∧
    |(processAuxChannels s a0 a1 a2 a3).1.lastAux3Output - a3| < Z_DEADZONE := by
  simp only [processAuxChannels, auxButtonStep_fst]
  refine ⟨?_, ?_, ?_, ?_, ?_⟩
  · rw [(setAux3_fst_frame _ _).1]
  · rw [(setAux3_fst_frame _ _).2.2.1]
  · rw [(setAux3_fst_frame _ _).2.2.2]
  · rw [(setAux3_fst_frame _ _).2.1]
  · exact setAux3_fst_lastAux3Close _ _

lemma fullCycle_fst_posts (cfg : Config) (s : St) (sr tr a0 a1 a2 a3 : ℤ) :
    (fullCycle cfg s sr tr a0 a1 a2 a3).1.lastSteeringInput = sr ∧
    (fullCycle cfg s sr tr a0 a1 a2 a3).1.lastThrottleInput = tr ∧
    (fullCycle cfg s sr tr a0 a1 a2 a3).1.buttonState 0 = buttonOf a0 ∧
    (fullCycle cfg s sr tr a0 a1 a2 a3).1.buttonState 1 = buttonOf a1 ∧
    (fullCycle cfg s sr tr a0 a1 a2 a3).1.buttonState 2 = buttonOf a2 ∧
    (fullCycle cfg s sr tr a0 a1 a2 a3).1.buttonState 3 = buttonOf a3 ∧
    |(fullCycle cfg s sr tr a0 a1 a2 a3).1.lastAux3Output - a3| < Z_DEADZONE ∧
    (fullCycle cfg s sr tr a0 a1 a2 a3).1.auxInput3 = a3 := by
  obtain ⟨o, hS⟩ := processSteering_fst cfg s sr
  obtain ⟨p, q, hT⟩ := processThrottle_fst cfg (processSteering cfg s sr).1 tr
  have hPA := processAuxChannels_fst
    (processThrottle cfg (processSteering cfg s sr).1 tr).1 a0 a1 a2 a3
  simp only [fullCycle]
  refine ⟨?_, ?_, ?_, ?_, ?_, ?_, ?_, ?_⟩
  · rw [hPA.2.1, hT, hS]
  · rw [hPA.2.2.1, hT]
  · rw [hPA.1, Function.update_noteq (show (0 : Fin 4) ≠ 3 by decide),
      Function.update_noteq (show (0 : Fin 4) ≠ 2 by decide),
      Function.update_noteq (show (0 : Fin 4) ≠ 1 by decide),
      Function.update_same]
  · rw [hPA.1, Function.update_noteq (show (1 : Fin 4) ≠ 3 by decide),
      Function.update_noteq (show (1 : Fin 4) ≠ 2 by decide),
      Function.update_same]
  · rw [hPA.1, Function.update_noteq (show (2 : Fin 4) ≠ 3 by decide),
      Function.update_same]
  · rw [hPA.1, Function.update_same]
  · exact hPA.2.2.2.2
  · exact hPA.2.2.2.1

/-! ### Silence lemmas: a step whose gate holds emits nothing -/

lemma processSteering_silent (cfg : Config) (s : St) (v : ℤ)
    (h : s.lastSteeringInput = v) : processSteering cfg s v = (s, []) := by
  simp only [processSteering]
  rw [if_pos h]

lemma processThrottle_silent (cfg : Config) (s : St) (v : ℤ)
    (h : s.lastThrottleInput = v) : processThrottle cfg s v = (s, []) := by
  simp only [processThrottle]
  rw [if_pos h]

lemma pressButton_silent (s : St) (i : Fin 4) (h : s.buttonState i = true) :
    pressButton s i = (s, []) := by
  simp only [pressButton]
  rw [if_pos h]

lemma releaseButton_silent (s : St) (i : Fin 4) (h : s.buttonState i = false) :
    releaseButton s i = (s, []) := by
  simp [releaseButton, h]

lemma auxButtonStep_silent (s : St) (a : ℤ) (i : Fin 4)
    (h : s.buttonState i = buttonOf a) : auxButtonStep s a i = (s, []) := by
  simp only [auxButtonStep]
  split_ifs with h2
  · exact releaseButton_silent s i (by rw [h]; simp only [buttonOf, if_pos h2])
  · exact pressButton_silent s i (by rw [h]; simp only [buttonOf, if_neg h2])

lemma setAux3_silent (s : St) (v : ℤ)
    (h : |s.lastAux3Output - v| < Z_DEADZONE) : setAux3 s v = (s, []) := by
  simp only [setAux3]
  rw [if_pos h]

lemma processAuxChannels_silent (s : St) (a0 a1 a2 a3 : ℤ)
    (hx : s.auxInput3 = a3)
    (hb0 : s.buttonState 0 = buttonOf a0) (hb1 : s.buttonState 1 = buttonOf a1)
    (hb2 : s.buttonState 2 = buttonOf a2) (hb3 : s.buttonState 3 = buttonOf a3)
    (ha : |s.lastAux3Output - a3| < Z_DEADZONE) :
    processAuxChannels s a0 a1 a2 a3 = (s, []) := by
  have h0 : ({ s with auxInput3 := a3 } : St) = s := by rw [← hx]
  simp only [processAuxChannels, h0, auxButtonStep_silent s a0 0 hb0,
    auxButtonStep_silent s a1 1 hb1, auxButtonStep_silent s a2 2 hb2,
    auxButtonStep_silent s a3 3 hb3, setAux3_silent s a3 ha,
    List.append_nil]

/-! ### Claim C6 -/

/-- C6: feeding the exact same raw readings on a second consecutive cycle
produces no output-sink call at all: the axis change-gates and the button
latches absorb the repeat, so the second cycle's event list is empty
(change-gating for axes, edge-triggering for buttons). -/
theorem secondCycle_silent (cfg : Config) (s : St) (sr tr a0 a1 a2 a3 : ℤ) :
    (fullCycle cfg (fullCycle cfg s sr tr a0 a1 a2 a3).1
      sr tr a0 a1 a2 a3).2 = [] := by
  obtain ⟨h1, h2, h3, h4, h5, h6, h7, h8⟩ :=
    fullCycle_fst_posts cfg s sr tr a0 a1 a2 a3
  have hs := processSteering_silent cfg (fullCycle cfg s sr tr a0 a1 a2 a3).1 sr h1
  have ht := processThrottle_silent cfg (fullCycle cfg s sr tr a0 a1 a2 a3).1 tr h2
  have hax := processAuxChannels_silent (fullCycle cfg s sr tr a0 a1 a2 a3).1
    a0 a1 a2 a3 h8 h3 h4 h5 h6 h7
  conv_lhs => rw [fullCycle]
  simp only [hs, ht, hax, List.append_nil]

/-! ### Claim C8 -/

lemma adjustSteering_rest_gate (cfg : Config) (s : St)
    (h : s.lastSteeringOutput = 0) :
    adjustSteering cfg s 0 = (s, []) := by
  simp only [adjustSteering]
  rw [if_pos h]

/-- C8 (amended, steering axis): from any reachable steering state (the
invariant ties the stored output to the stored input) a raw value w back
inside the deadzone band emits exactly one return-to-rest event carrying
value 0 if the axis was away from rest, emits nothing if it was already
at rest, and leaves the axis at rest — so later in-band cycles stay
silent. -/
theorem steering_rest_reentry_once (cfg : Config) (s : St) (w : ℤ)
    (hinv : s.lastSteeringOutput = effectiveSteering s.lastSteeringInput)
    (hw : |w| ≤ S_DEADZONE) (he : cfg.steeringExponent ≠ 0) :
    (s.lastSteeringOutput ≠ 0 →
      (processSteering cfg s w).2 = [Ev.joySetSteering 0]) ∧
    (s.lastSteeringOutput = 0 → (processSteering cfg s w).2 = []) ∧
    (processSteering cfg s w).1.lastSteeringOutput = 0 := by
  have heffw : effectiveSteering w = 0 := by
    simp only [effectiveSteering, if_neg (not_lt.mpr hw)]
  by_cases hgate : s.lastSteeringInput = w
  · have hout : s.lastSteeringOutput = 0 := by rw [hinv, hgate, heffw]
    have hps := processSteering_silent cfg s w hgate
    rw [hps]
    exact ⟨fun hne => absurd hout hne, fun _ => rfl, hout⟩
  · have hps : processSteering cfg s w =
        adjustSteering cfg { s with lastSteeringInput := w } 0 := by
      simp only [processSteering, if_neg hgate, heffw]
    rw [hps]
    by_cases hzero : s.lastSteeringOutput = 0
    · have hgate2 : ({ s with lastSteeringInput := w } : St).lastSteeringOutput = 0 :=
        hzero
      rw [adjustSteering_rest_gate cfg _ hgate2]
      exact ⟨fun hne => absurd hzero hne, fun _ => rfl, hzero⟩
    · have hzero2 : ¬({ s with lastSteeringInput := w } : St).lastSteeringOutput = 0 :=
        hzero
      have hev : truncToInt (applySteeringExponent 0 cfg.steeringExponent) = 0 := by
        have hz : applySteeringExponent 0 cfg.steeringExponent = 0 := by
          rw [applySteeringExponent_eq]
          norm_num [steeringShape_zero _ he]
        rw [hz]
        simp only [truncToInt, if_neg (lt_irrefl (0 : ℝ))]
        exact Int.floor_zero
      have hadj : adjustSteering cfg { s with lastSteeringInput := w } 0 =
          ({ s with lastSteeringInput := w, lastSteeringOutput := 0 },
            [Ev.joySetSteering 0]) := by
        simp only [adjustSteering, if_neg hzero2]
        split_ifs with htog
        · rw [hev]
          rfl
        · rfl
      rw [hadj]
      exact ⟨fun _ => rfl, fun h0 => absurd h0 hzero, rfl⟩

/-- The sketch's compile-time configuration (part_000 lines 43-45,
139-140): all three curves on, exponent 1.64, curve adjustment 1.0. -/
noncomputable def defaultConfig : Config :=
  { steeringExponential := true, acceleratorCurve := true, brakeCurve := true,
    steeringExponent := 1.64, curveAdjustment := 1 }

/-- A reachable state in which the steering axis is away from rest:
the last raw steering input was 100 (outside the deadzone). -/
def w8s : St :=
  { lastSteeringInput := 100, lastThrottleInput := 0, lastSteeringOutput := 100,
    lastAcceleratorOutput := 0, lastBrakeOutput := 0, lastAux3Output := 0,
    auxInput3 := 0, buttonState := fun _ => false }

/-- Witness for C8's amended steering statement at w = 12. -/
theorem steering_rest_reentry_once_witness :
    (w8s.lastSteeringOutput = effectiveSteering w8s.lastSteeringInput ∧
      |(12 : ℤ)| ≤ S_DEADZONE ∧ defaultConfig.steeringExponent ≠ 0) ∧
    ((w8s.lastSteeringOutput ≠ 0 →
        (processSteering defaultConfig w8s 12).2 = [Ev.joySetSteering 0]) ∧
      (w8s.lastSteeringOutput = 0 →
        (processSteering defaultConfig w8s 12).2 = []) ∧
      (processSteering defaultConfig w8s 12).1.lastSteeringOutput = 0) :=
  ⟨⟨by decide, by decide, by norm_num [defaultConfig]⟩,
    steering_rest_reentry_once defaultConfig w8s 12 (by decide) (by decide)
      (by norm_num [defaultConfig])⟩

/-! ### C8 counterexample: the accelerator path with a negative blend
factor does NOT return to rest with value 0 -/

lemma log_9999_bounds : 9 < Real.log 9999 ∧ Real.log 9999 < 10 := by
  constructor
  · rw [Real.lt_log_iff_exp_lt (by norm_num : (0 : ℝ) < 9999)]
    have h9 : Real.exp 9 = Real.exp 1 ^ (9 : ℕ) := by
      rw [← Real.exp_nat_mul]
      norm_num
    rw [h9]
    calc Real.exp 1 ^ (9 : ℕ) < 2.7182818286 ^ (9 : ℕ) :=
          pow_lt_pow_left₀ Real.exp_one_lt_d9 (Real.exp_pos 1).le (by norm_num)
      _ < 9999 := by norm_num
  · rw [Real.log_lt_iff_lt_exp (by norm_num : (0 : ℝ) < 9999)]
    have h10 : Real.exp 10 = Real.exp 1 ^ (10 : ℕ) := by
      rw [← Real.exp_nat_mul]
      norm_num
    rw [h10]
    calc (9999 : ℝ) < 2.7182818283 ^ (10 : ℕ) := by norm_num
      _ < Real.exp 1 ^ (10 : ℕ) :=
          pow_lt_pow_left₀ Real.exp_one_gt_d9 (by norm_num) (by norm_num)

lemma logitClamp_zero : logitClamp 0 = 0.0001 := by
  unfold logitClamp
  rw [min_eq_right (by norm_num), max_eq_left (by norm_num)]

lemma logit_lowest : logit 0.0001 = -Real.log 9999 := by
  unfold logit
  have hc : logitClamp 0.0001 = 0.0001 := by
    unfold logitClamp
    rw [min_eq_right (by norm_num), max_eq_left (by norm_num)]
  rw [hc, show (0.0001 : ℝ) / (1 - 0.0001) = ((9999 : ℝ))⁻¹ by norm_num,
    Real.log_inv]

lemma X8_eq_form :
    adjustedLogitCurve ((0 : ℤ) : ℝ) 1 (-0.0984) =
      max 0 (min 1000 (8.2 * Real.log 9999 - 49.2)) := by
  unfold adjustedLogitCurve
  rw [show (((0 : ℤ) : ℝ)) / 1000 = 0 by norm_num, logitClamp_zero, logit_lowest]
  have h : (-0.0984 : ℝ) * ((-Real.log 9999 * 1 + 6) / 12 * 1000)
      + (1 - (-0.0984)) * ((0 : ℤ) : ℝ) = 8.2 * Real.log 9999 - 49.2 := by
    push_cast
    ring
  rw [h]

lemma X8_bounds :
    24 ≤ adjustedLogitCurve ((0 : ℤ) : ℝ) 1 (-0.0984) ∧
      adjustedLogitCurve ((0 : ℤ) : ℝ) 1 (-0.0984) ≤ 33 := by
  obtain ⟨hl, hu⟩ := log_9999_bounds
  rw [X8_eq_form]
  have hle : (24 : ℝ) ≤ 8.2 * Real.log 9999 - 49.2 := by linarith
  have hge : (8.2 : ℝ) * Real.log 9999 - 49.2 ≤ 33 := by linarith
  rw [min_eq_right (by linarith), max_eq_right (by linarith)]
  exact ⟨hle, hge⟩

lemma outv8_bounds :
    1 ≤ truncToInt (adjustedLogitCurve ((0 : ℤ) : ℝ) 1 (-0.0984) + 0.5) ∧
      truncToInt (adjustedLogitCurve ((0 : ℤ) : ℝ) 1 (-0.0984) + 0.5) ≤ 1000 := by
  obtain ⟨hlo, hhi⟩ := X8_bounds
  have hy0 : ¬(adjustedLogitCurve ((0 : ℤ) : ℝ) 1 (-0.0984) + 0.5 < 0) :=
    not_lt.mpr (by linarith)
  simp only [truncToInt, if_neg hy0]
  constructor
  · rw [Int.le_floor]
    push_cast
    linarith
  · have h1 := Int.floor_le (adjustedLogitCurve ((0 : ℤ) : ℝ) 1 (-0.0984) + 0.5)
    have h2 : (⌊adjustedLogitCurve ((0 : ℤ) : ℝ) 1 (-0.0984) + 0.5⌋ : ℝ) ≤ 1000 := by
      linarith
    exact_mod_cast h2

lemma adjustAccelerator_curve_run (cfg : Config) (s : St) (v : ℤ)
    (hg : ¬s.lastAcceleratorOutput = v) (hc : cfg.acceleratorCurve = true)
    (ha : AUX_MIN < s.auxInput3) :
    adjustAccelerator cfg s v =
      ({ s with lastAcceleratorOutput := v },
        [Ev.joySetThrottle (clampAccelerator (truncToInt
          (adjustedLogitCurve (v : ℝ) cfg.curveAdjustment
            (mapFloat (s.auxInput3 : ℝ) 0 1000 (-0.1) 1.5) + 0.5))),
         Ev.joySetAccelerator 0]) := by
  simp only [adjustAccelerator]
  rw [if_neg hg,
    if_pos (show cfg.acceleratorCurve = true ∧
      AUX_MIN < ({ s with lastAcceleratorOutput := v } : St).auxInput3 from ⟨hc, ha⟩)]
  simp only [setAccelerator]
  rw [if_pos (show AUX_MIN < ({ s with lastAcceleratorOutput := v } : St).auxInput3
    from ha)]

lemma adjustBrake_gate_run (cfg : Config) (s : St) (v : ℤ)
    (hg : s.lastBrakeOutput = v) : adjustBrake cfg s v = (s, []) := by
  simp only [adjustBrake]
  rw [if_pos hg]

/-- A reachable throttle state: the accelerator last received 500 (the
raw throttle had left the deadzone band) and aux3 reads 1, so the blend
factor is mapFloat(1) = -0.0984 < 0. -/
def s8 : St :=
  { initSt with
      lastThrottleInput := 500
      lastAcceleratorOutput := 500
      auxInput3 := 1 }

lemma c8run : (processThrottle defaultConfig s8 0).2 =
    [Ev.joySetThrottle (clampAccelerator (truncToInt
      (adjustedLogitCurve ((0 : ℤ) : ℝ) 1 (-0.0984) + 0.5))),
     Ev.joySetAccelerator 0] := by
  have h1 : ¬(s8.lastThrottleInput = (0 : ℤ)) := by decide
  have hea : effectiveAccelerator 0 = 0 := by decide
  have heb : effectiveBrake 0 = 0 := by decide
  simp only [processThrottle]
  rw [if_neg h1, hea, heb]
  have hg : ¬(({ s8 with lastThrottleInput := (0 : ℤ) } : St).lastAcceleratorOutput
      = (0 : ℤ)) := by decide
  have hc : defaultConfig.acceleratorCurve = true := rfl
  have ha : AUX_MIN < ({ s8 with lastThrottleInput := (0 : ℤ) } : St).auxInput3 := by
    decide
  rw [adjustAccelerator_curve_run defaultConfig _ 0 hg hc ha]
  dsimp only
  have hb : ({ { s8 with lastThrottleInput := (0 : ℤ) } with
      lastAcceleratorOutput := (0 : ℤ) } : St).lastBrakeOutput = (0 : ℤ) := by decide
  rw [adjustBrake_gate_run defaultConfig _ 0 hb]
  have hcadj : defaultConfig.curveAdjustment = 1 := rfl
  have hmap : mapFloat
      ((({ s8 with lastThrottleInput := (0 : ℤ) } : St).auxInput3 : ℝ))
      0 1000 (-0.1) 1.5 = -0.0984 := by
    show mapFloat (((1 : ℤ) : ℝ)) 0 1000 (-0.1) 1.5 = -0.0984
    unfold mapFloat
    push_cast
    norm_num
  rw [hcadj, hmap]
  simp

/-- C8 counterexample: in the state s8 (accelerator away from rest,
aux3 = 1 so the blend factor is negative) the raw throttle re-entering
the deadzone band (reading 0) emits a NONZERO throttle-axis value (the
extrapolated curve maps rest to about 25-33) and no zero-valued
throttle write at all — not "exactly one value-0 output event". -/
theorem throttle_reentry_nonzero_counterexample :
    (∃ v : ℤ, Ev.joySetThrottle v ∈ (processThrottle defaultConfig s8 0).2 ∧
      v ≠ 0) ∧
      Ev.joySetThrottle 0 ∉ (processThrottle defaultConfig s8 0).2 := by
  obtain ⟨h1, h2⟩ := outv8_bounds
  have hck : clampAccelerator (truncToInt
      (adjustedLogitCurve ((0 : ℤ) : ℝ) 1 (-0.0984) + 0.5)) =
      truncToInt (adjustedLogitCurve ((0 : ℤ) : ℝ) 1 (-0.0984) + 0.5) := by
    unfold clampAccelerator
    have hA : ¬(ACCELERATOR_MAX < truncToInt
        (adjustedLogitCurve ((0 : ℤ) : ℝ) 1 (-0.0984) + 0.5)) := by
      show ¬((1000 : ℤ) < _)
      omega
    have hB : ¬(truncToInt
        (adjustedLogitCurve ((0 : ℤ) : ℝ) 1 (-0.0984) + 0.5) < ACCELERATOR_MIN) := by
      show ¬(_ < (0 : ℤ))
      omega
    rw [if_neg hA, if_neg hB]
  have hne : truncToInt (adjustedLogitCurve ((0 : ℤ) : ℝ) 1 (-0.0984) + 0.5) ≠ 0 := by
    omega
  constructor
  · refine ⟨truncToInt (adjustedLogitCurve ((0 : ℤ) : ℝ) 1 (-0.0984) + 0.5),
      ?_, hne⟩
    rw [c8run, hck]
    exact List.mem_cons_self _ _
  · rw [c8run]
    intro hmem
    rcases List.mem_cons.mp hmem with h | h
    · rw [hck] at h
      injection h with hh
      exact hne hh.symm
    · rcases List.mem_cons.mp h with h' | h'
      · exact Ev.noConfusion h'
      · exact List.not_mem_nil _ h'

end FormulaRC
